import Mathlib

/-!
Shallow embedding of the beat-grid subsystem of the DJ-app repository.

The embedded code lives in `src/js/core/beat-manager.js` (class `BeatManager`)
and `src/js/rendering/waveform-renderer.js` (beat-marker windowing inside
`drawZoomedWaveform`), with the lifecycle call site in `dj-deck.js`
(`loadTrack` calling `resetBeatMarkers`).

Modelling conventions:
* JS numbers are modelled as exact rationals (`ℚ`); the numeric literals
  `0.7`, `1.3`, `60000`, `3000`, `1000` of the source become the exact
  rationals `7/10`, `13/10`, `60000`, `3000`, `1000`.
* `Math.round` is `round : ℚ → ℤ` (both are `⌊x + 1/2⌋` on the positive
  finite values that occur here).
* Where the JS arithmetic can produce a non-finite number (`0/0 = NaN`,
  `60000/0 = Infinity` in `calculateTapTempo`), the model returns
  `Option.none`; a finite result is `some`.
* The two unbounded `while` loops of `generateBeatsFromManualTaps` are
  modelled with explicit fuel: `none` means the loop did not exit within
  the given number of iterations, so non-termination of the JS loop is the
  statement that the model returns `none` for every fuel.
* `Array.prototype.sort` with comparator `(a, b) => a.time - b.time` is a
  stable ascending sort by `time`; it is modelled by `List.insertionSort`
  with the relation `a.time ≤ b.time`, which is likewise stable.
-/

namespace DJApp

/-- One beat marker as pushed by `generateBeatsFromManualTaps`
(beat-manager.js lines 176-182 and 195-201): the fields `strength` and
`isKick` are always `1.0` and `false`; `position` is the signed sequence
index relative to the anchor (the anchor itself has position 1). -/
structure BeatMarker where
  time : ℚ
  strength : ℚ
  isKick : Bool
  isMainBeat : Bool
  position : ℤ
  deriving DecidableEq

/-- Per-deck mutable state of `BeatManager` (constructor, beat-manager.js
lines 11-18).  The JS field `bpm` starts as the sentinel `0` and can later
hold `Math.round` of a finite quotient, or a non-finite value; it is
modelled as `Option ℤ`, where `none` covers both the initial/reset
sentinel `0` and the non-finite outcomes, and `some b` a computed finite
rounded value. -/
structure BeatState where
  tapTimes : List ℚ
  lastTapTime : ℚ
  tapTempoActive : Bool
  beatMarkers : List BeatMarker
  bpm : Option ℤ
  deriving DecidableEq

/-- Consecutive inter-tap intervals: the loop
`for (let i = 1; i < tapTimes.length; i++) intervals.push(tapTimes[i] - tapTimes[i-1])`
appearing in `calculateTapTempo` (lines 84-87) and in
`generateBeatsFromManualTaps` (lines 137-140). -/
def intervalsOf : List ℚ → List ℚ
  | a :: b :: rest => (b - a) :: intervalsOf (b :: rest)
  | _ => []

/-- Median of a list as computed in `filterOutliers` (beat-manager.js lines
110-115): sort ascending, take the middle element, or the mean of the two
middle elements when the length is even.  Out-of-range reads (never
reached on the call sites) default to `0`. -/
def medianOf (intervals : List ℚ) : ℚ :=
  let sortedIntervals := List.insertionSort (· ≤ ·) intervals
  let mid := intervals.length / 2
  if intervals.length % 2 = 0 then
    (sortedIntervals.getD (mid - 1) 0 + sortedIntervals.getD mid 0) / 2
  else
    sortedIntervals.getD mid 0

/-- `filterOutliers` (beat-manager.js lines 106-121): lists of at most 3
intervals are returned unchanged; otherwise keep the values `v` with
`median * 0.7 ≤ v ≤ median * 1.3`. -/
def filterOutliers (intervals : List ℚ) : List ℚ :=
  if intervals.length ≤ 3 then intervals
  else
    let median := medianOf intervals
    intervals.filter fun val =>
      decide (median * (7/10) ≤ val) && decide (val ≤ median * (13/10))

/-- `calculateTapTempo` (beat-manager.js lines 82-99) as a function of the
tap list: intervals, outlier filtering, average, `60000 / avg`, rounded.
`none` models the non-finite JS results: when no interval survives the
filter the JS computes `0/0 = NaN`, and when the surviving intervals sum
to `0` it computes `60000/0 = Infinity`; in both cases `Math.round` keeps
the non-finite value. -/
def calculateTapTempo (tapTimes : List ℚ) : Option ℤ :=
  let intervals := intervalsOf tapTimes
  let validIntervals := filterOutliers intervals
  if validIntervals.length = 0 ∨ validIntervals.sum = 0 then none
  else some (round ((60000 : ℚ) / (validIntervals.sum / validIntervals.length)))

/-- The tap-recording portion of `handleTapTempo` (beat-manager.js lines
29-45): reset the session when the gap since the last tap exceeds 3000 ms,
append the new tap, update `lastTapTime`, and recompute the BPM once the
session has at least 4 taps.  The grid-regeneration call at line 52 is
modelled separately by `generateBeatsFromManualTaps` below. -/
def recordTap (st : BeatState) (now : ℚ) : BeatState :=
  let st1 :=
    if 3000 < now - st.lastTapTime then
      { st with tapTimes := [], bpm := none, tapTempoActive := true }
    else st
  let st2 := { st1 with tapTimes := st1.tapTimes ++ [now], lastTapTime := now }
  if 4 ≤ st2.tapTimes.length then { st2 with bpm := calculateTapTempo st2.tapTimes }
  else st2

/-- The loop `while (normalizedPosition <= 0) normalizedPosition += 4` with
bounded fuel; each iteration adds 4. -/
def normalizePosAux : ℕ → ℤ → ℤ
  | 0, p => p
  | n + 1, p => if p ≤ 0 then normalizePosAux n (p + 4) else p

/-- Backward-pass position normalization (beat-manager.js lines 170-171):
repeatedly add 4 while the position is `≤ 0`.  The JS loop terminates after
at most `(1 - p).toNat` iterations (each adds 4), which is supplied as
fuel, so this equals the loop's exit value. -/
def normalizePos (p : ℤ) : ℤ :=
  normalizePosAux (1 - p).toNat p

/-- The backward generation loop (beat-manager.js lines 163-184):
`while (time > 0) { time -= beatInterval; if (time >= 0) { push marker } }`.
`none` means the loop did not exit within `fuel` iterations. -/
def backLoop (beatInterval : ℚ) : ℕ → ℚ → ℤ → List BeatMarker → Option (List BeatMarker)
  | 0, _, _, _ => none
  | fuel + 1, time, beatPosition, acc =>
    if 0 < time then
      let t := time - beatInterval
      if 0 ≤ t then
        backLoop beatInterval fuel t (beatPosition - 1)
          (acc ++ [⟨t, 1, false, decide (normalizePos (beatPosition - 1) % 4 = 1),
                    beatPosition - 1⟩])
      else
        backLoop beatInterval fuel t beatPosition acc
    else some acc

/-- The forward generation loop (beat-manager.js lines 191-205):
`while (time < trackDuration) { push marker; time += beatInterval; beatPosition++ }`.
`none` means the loop did not exit within `fuel` iterations. -/
def forwardLoop (beatInterval trackDuration : ℚ) :
    ℕ → ℚ → ℤ → List BeatMarker → Option (List BeatMarker)
  | 0, _, _, _ => none
  | fuel + 1, time, beatPosition, acc =>
    if time < trackDuration then
      forwardLoop beatInterval trackDuration fuel (time + beatInterval) (beatPosition + 1)
        (acc ++ [⟨time, 1, false, decide (beatPosition % 4 = 1), beatPosition⟩])
    else some acc

/-- The final `beatMarkers.sort((a, b) => a.time - b.time)` (line 208): a
stable ascending sort by `time`. -/
def sortByTime (l : List BeatMarker) : List BeatMarker :=
  List.insertionSort (fun a b => a.time ≤ b.time) l

/-- Core of `generateBeatsFromManualTaps` (beat-manager.js lines 154-208) as
a function of the already-computed beat interval (seconds), anchor
(`firstTapTime`, seconds) and track duration: backward pass (only when the
anchor is `> 0`, starting from position 1), forward pass (from the anchor at
position 1), then sort by time. -/
def generateBeatsCore (fuel : ℕ) (beatInterval firstTapTime trackDuration : ℚ) :
    Option (List BeatMarker) :=
  match (if 0 < firstTapTime then backLoop beatInterval fuel firstTapTime 1 [] else some []) with
  | none => none
  | some backward =>
    match forwardLoop beatInterval trackDuration fuel firstTapTime 1 [] with
    | none => none
    | some markers => some (sortByTime (backward ++ markers))

/-- `generateBeatsFromManualTaps` (beat-manager.js lines 130-211): early
return (keeping the current markers) without a buffer or with fewer than 2
taps; otherwise the beat interval is the plain mean of all inter-tap
intervals divided by 1000, the anchor is derived from playback state, and
the core two-pass generation runs.  Returns the new `beatMarkers`. -/
def generateBeatsFromManualTaps (fuel : ℕ) (st : BeatState) (hasBuffer isPlaying : Bool)
    (startTime currentTime : ℚ) (trackDuration : ℚ) : Option (List BeatMarker) :=
  if hasBuffer = false ∨ st.tapTimes.length < 2 then some st.beatMarkers
  else
    let intervals := intervalsOf st.tapTimes
    let avgInterval := intervals.sum / intervals.length
    let beatInterval := avgInterval / 1000
    let firstTapTime :=
      if isPlaying then st.tapTimes.headI / 1000 - (currentTime - startTime) else 0
    generateBeatsCore fuel beatInterval firstTapTime trackDuration

/-- The beat interval (in seconds) that `generateBeatsFromManualTaps` uses
(lines 136-146): plain arithmetic mean of all inter-tap intervals, no
outlier filtering, divided by 1000. -/
def gridBeatIntervalSeconds (tapTimes : List ℚ) : ℚ :=
  let intervals := intervalsOf tapTimes
  (intervals.sum / intervals.length) / 1000

/-- `resetBeatMarkers` (beat-manager.js lines 232-234), the reset invoked by
`loadTrack` (dj-deck.js line 176): it assigns `this.beatMarkers = []` and
touches nothing else. -/
def resetBeatMarkers (st : BeatState) : BeatState :=
  { st with beatMarkers := [] }

/-- `getBPM` (beat-manager.js lines 217-219). -/
def getBPM (st : BeatState) : Option ℤ :=
  st.bpm

/-- `getBeatMarkers` (beat-manager.js lines 225-227). -/
def getBeatMarkers (st : BeatState) : List BeatMarker :=
  st.beatMarkers

/-- The fixed visual window width in seconds (waveform-renderer.js line
216: `const windowDuration = 4`). -/
def windowDuration : ℚ := 4

/-- The beat-marker windowing of `drawZoomedWaveform` (waveform-renderer.js
lines 284-291): keep the markers with
`startTime ≤ beat.time ≤ endTime` where `startTime = currentTime - windowDuration/2`
and `endTime = currentTime + windowDuration/2`. -/
def visibleBeats (beatMarkers : List BeatMarker) (currentTime : ℚ) : List BeatMarker :=
  let startTime := currentTime - windowDuration / 2
  let endTime := currentTime + windowDuration / 2
  beatMarkers.filter fun beat =>
    decide (startTime ≤ beat.time) && decide (beat.time ≤ endTime)

/-- The horizontal fraction of the window assigned to a visible beat
(waveform-renderer.js line 296):
`(beat.time - startTime) / windowDuration`. -/
def beatRelativePosition (currentTime : ℚ) (beat : BeatMarker) : ℚ :=
  (beat.time - (currentTime - windowDuration / 2)) / windowDuration

/-- The averaging rule in the words of the specification: with exactly 4
taps (3 intervals) no filtering is applied and the mean of all 3 intervals
is taken; otherwise the mean of the intervals surviving the
`[0.7 * median, 1.3 * median]` cut. -/
def specAvgInterval (tapTimes : List ℚ) : ℚ :=
  let intervals := intervalsOf tapTimes
  if tapTimes.length = 4 then intervals.sum / intervals.length
  else
    let m := medianOf intervals
    let surviving := intervals.filter fun val =>
      decide (m * (7/10) ≤ val) && decide (val ≤ m * (13/10))
    surviving.sum / surviving.length

/-! ### Helper lemmas -/

theorem intervalsOf_length (l : List ℚ) : (intervalsOf l).length = l.length - 1 := by
  induction l with
  | nil => rfl
  | cons a t ih =>
    cases t with
    | nil => rfl
    | cons b r =>
      simp only [intervalsOf, List.length_cons] at ih ⊢
      omega

theorem mem_sortByTime {m : BeatMarker} {l : List BeatMarker} :
    m ∈ sortByTime l ↔ m ∈ l :=
  (List.perm_insertionSort _ l).mem_iff

theorem normalizePosAux_emod (n : ℕ) : ∀ p : ℤ, normalizePosAux n p % 4 = p % 4 := by
  induction n with
  | zero => intro p; rfl
  | succ k ih =>
    intro p
    by_cases h : p ≤ 0
    · rw [normalizePosAux, if_pos h, ih (p + 4)]; omega
    · rw [normalizePosAux, if_neg h]

theorem normalizePos_emod (p : ℤ) : normalizePos p % 4 = p % 4 :=
  normalizePosAux_emod _ p

theorem backLoop_main (bi : ℚ) : ∀ (fuel : ℕ) (time : ℚ) (pos : ℤ)
    (acc res : List BeatMarker),
    backLoop bi fuel time pos acc = some res →
    (∀ m ∈ acc, m.isMainBeat = true ↔ m.position % 4 = 1) →
    ∀ m ∈ res, m.isMainBeat = true ↔ m.position % 4 = 1 := by
  intro fuel
  induction fuel with
  | zero => intro time pos acc res h; exact absurd h (by simp [backLoop])
  | succ k ih =>
    intro time pos acc res h hacc
    simp only [backLoop] at h
    split_ifs at h with h1 h2
    · refine ih _ _ _ _ h ?_
      intro m hm
      rcases List.mem_append.1 hm with hm | hm
      · exact hacc m hm
      · rcases List.mem_singleton.1 hm with rfl
        simp [decide_eq_true_eq, normalizePos_emod]
    · exact ih _ _ _ _ h hacc
    · rcases Option.some.inj h with rfl
      exact hacc

theorem forwardLoop_main (bi dur : ℚ) : ∀ (fuel : ℕ) (time : ℚ) (pos : ℤ)
    (acc res : List BeatMarker),
    forwardLoop bi dur fuel time pos acc = some res →
    (∀ m ∈ acc, m.isMainBeat = true ↔ m.position % 4 = 1) →
    ∀ m ∈ res, m.isMainBeat = true ↔ m.position % 4 = 1 := by
  intro fuel
  induction fuel with
  | zero => intro time pos acc res h; exact absurd h (by simp [forwardLoop])
  | succ k ih =>
    intro time pos acc res h hacc
    simp only [forwardLoop] at h
    split_ifs at h with h1
    · refine ih _ _ _ _ h ?_
      intro m hm
      rcases List.mem_append.1 hm with hm | hm
      · exact hacc m hm
      · rcases List.mem_singleton.1 hm with rfl
        simp [decide_eq_true_eq]
    · rcases Option.some.inj h with rfl
      exact hacc

theorem backLoop_times (bi : ℚ) (hbi : 0 < bi) : ∀ (fuel : ℕ) (time : ℚ) (pos : ℤ)
    (acc res : List BeatMarker),
    backLoop bi fuel time pos acc = some res →
    ∀ m ∈ res, m ∈ acc ∨ (0 ≤ m.time ∧ m.time < time) := by
  intro fuel
  induction fuel with
  | zero => intro time pos acc res h; exact absurd h (by simp [backLoop])
  | succ k ih =>
    intro time pos acc res h
    simp only [backLoop] at h
    split_ifs at h with h1 h2
    · intro m hm
      rcases ih _ _ _ _ h m hm with hmem | ⟨hnn, hlt⟩
      · rcases List.mem_append.1 hmem with hmem | hmem
        · exact Or.inl hmem
        · rcases List.mem_singleton.1 hmem with rfl
          exact Or.inr ⟨h2, by simpa using sub_lt_self time hbi⟩
      · exact Or.inr ⟨hnn, by linarith⟩
    · intro m hm
      rcases ih _ _ _ _ h m hm with hmem | ⟨hnn, hlt⟩
      · exact Or.inl hmem
      · exact Or.inr ⟨hnn, by linarith⟩
    · rcases Option.some.inj h with rfl
      exact fun m hm => Or.inl hm

theorem forwardLoop_times (bi dur : ℚ) (hbi : 0 ≤ bi) : ∀ (fuel : ℕ) (time : ℚ) (pos : ℤ)
    (acc res : List BeatMarker),
    forwardLoop bi dur fuel time pos acc = some res →
    ∀ m ∈ res, m ∈ acc ∨ (time ≤ m.time ∧ m.time < dur) := by
  intro fuel
  induction fuel with
  | zero => intro time pos acc res h; exact absurd h (by simp [forwardLoop])
  | succ k ih =>
    intro time pos acc res h
    simp only [forwardLoop] at h
    split_ifs at h with h1
    · intro m hm
      rcases ih _ _ _ _ h m hm with hmem | ⟨hle, hlt⟩
      · rcases List.mem_append.1 hmem with hmem | hmem
        · exact Or.inl hmem
        · rcases List.mem_singleton.1 hmem with rfl
          exact Or.inr ⟨le_refl _, h1⟩
      · exact Or.inr ⟨by linarith, hlt⟩
    · rcases Option.some.inj h with rfl
      exact fun m hm => Or.inl hm

theorem backLoop_zero_interval : ∀ (fuel : ℕ) (pos : ℤ) (acc : List BeatMarker),
    backLoop (0 : ℚ) fuel 1 pos acc = none := by
  intro fuel
  induction fuel with
  | zero => intro pos acc; rfl
  | succ k ih =>
    intro pos acc
    simp only [backLoop]
    norm_num
    exact ih _ _

/-! ### Claim theorems -/

/-- Claim C2: grid generation with `beatIntervalSeconds = 1/2`,
`anchorTimeSeconds = 5/4` and `trackDurationSeconds = 2` returns exactly
the markers with times `1/4, 3/4, 5/4, 7/4`: the backward pass keeps
`1/4` and `3/4` and drops the would-be marker at `-1/4`, the forward pass
yields `5/4` and `7/4`, and the returned sequence is strictly ascending
by time. -/
theorem grid_anchor_five_quarters :
    generateBeatsCore 10 ((1 : ℚ)/2) (5/4) 2 =
      some [⟨1/4, 1, false, false, -1⟩, ⟨3/4, 1, false, false, 0⟩,
            ⟨5/4, 1, false, true, 1⟩, ⟨7/4, 1, false, false, 2⟩]
    ∧ List.Chain' (· < ·)
        (((generateBeatsCore 10 ((1 : ℚ)/2) (5/4) 2).getD []).map BeatMarker.time) := by
  have h : generateBeatsCore 10 ((1 : ℚ)/2) (5/4) 2 =
      some [⟨1/4, 1, false, false, -1⟩, ⟨3/4, 1, false, false, 0⟩,
            ⟨5/4, 1, false, true, 1⟩, ⟨7/4, 1, false, false, 2⟩] := by
    norm_num [generateBeatsCore, backLoop, forwardLoop, normalizePos, normalizePosAux,
      sortByTime, List.insertionSort, List.orderedInsert]
  refine ⟨h, ?_⟩
  rw [h]
  norm_num [List.chain'_cons]

/-- Claim C3: for every generated grid, a marker carries
`isMainBeat = true` if and only if its position index, normalized into
the cycle 1..4 by repeatedly adding 4 while it is nonpositive, is
congruent to 1 mod 4 — equivalently iff the raw position index itself is
congruent to 1 mod 4, so forward and backward passes agree on phase for
every anchor. -/
theorem isMainBeat_iff_position_mod_four :
    ∀ (fuel : ℕ) (bi a d : ℚ) (grid : List BeatMarker),
    generateBeatsCore fuel bi a d = some grid →
    ∀ m ∈ grid,
      (m.isMainBeat = true ↔ normalizePos m.position % 4 = 1)
      ∧ (m.isMainBeat = true ↔ m.position % 4 = 1) := by
  intro fuel bi a d grid h m hm
  have key : m.isMainBeat = true ↔ m.position % 4 = 1 := by
    unfold generateBeatsCore at h
    rcases hback : (if 0 < a then backLoop bi fuel a 1 [] else some []) with _ | backward
    · rw [hback] at h; exact absurd h (by simp)
    · rw [hback] at h
      rcases hfwd : forwardLoop bi d fuel a 1 [] with _ | fwd
      · rw [hfwd] at h; exact absurd h (by simp)
      · rw [hfwd] at h
        rcases Option.some.inj h with rfl
        rcases List.mem_append.1 (mem_sortByTime.1 hm) with hmb | hmf
        · by_cases ha : 0 < a
          · rw [if_pos ha] at hback
            exact backLoop_main bi fuel a 1 [] backward hback (by simp) m hmb
          · rw [if_neg ha] at hback
            rcases Option.some.inj hback with rfl
            exact absurd hmb (by simp)
        · exact forwardLoop_main bi d fuel a 1 [] fwd hfwd (by simp) m hmf
  exact ⟨by rw [key, ← normalizePos_emod m.position], key⟩

/-- Witness for C3 at the concrete grid of interval 1/2, anchor 5/4,
duration 2: the anchor marker (position 1) is a main beat. -/
theorem isMainBeat_iff_position_mod_four_witness :
    ((⟨(5:ℚ)/4, 1, false, true, 1⟩ : BeatMarker).isMainBeat = true
      ↔ normalizePos (⟨(5:ℚ)/4, 1, false, true, 1⟩ : BeatMarker).position % 4 = 1)
    ∧ ((⟨(5:ℚ)/4, 1, false, true, 1⟩ : BeatMarker).isMainBeat = true
      ↔ (⟨(5:ℚ)/4, 1, false, true, 1⟩ : BeatMarker).position % 4 = 1) :=
  isMainBeat_iff_position_mod_four 10 ((1 : ℚ)/2) (5/4) 2
    [⟨1/4, 1, false, false, -1⟩, ⟨3/4, 1, false, false, 0⟩,
     ⟨5/4, 1, false, true, 1⟩, ⟨7/4, 1, false, false, 2⟩]
    (by norm_num [generateBeatsCore, backLoop, forwardLoop, normalizePos, normalizePosAux,
      sortByTime, List.insertionSort, List.orderedInsert])
    ⟨(5:ℚ)/4, 1, false, true, 1⟩ (by simp)

/-- Claim C4 (code bug): with a zero beat interval and a positive anchor
the backward `while` loop of `generateBeatsFromManualTaps` never exits
(no amount of fuel completes it), instead of producing an empty grid;
and with `trackDurationSeconds = 0` but a positive anchor the generation
returns a non-empty grid of backward markers instead of an empty one. -/
theorem generation_degenerate_inputs :
    (∀ fuel : ℕ, generateBeatsCore fuel 0 1 1 = none)
    ∧ generateBeatsCore 10 ((1 : ℚ)/2) 1 0 =
        some [⟨0, 1, false, false, -1⟩, ⟨1/2, 1, false, false, 0⟩] := by
  constructor
  · intro fuel
    simp only [generateBeatsCore]
    norm_num [backLoop_zero_interval]
  · norm_num [generateBeatsCore, backLoop, forwardLoop, normalizePos, normalizePosAux,
      sortByTime, List.insertionSort, List.orderedInsert]

/-- Claim C6 (code bug): on a session of four identical taps all
inter-tap intervals are zero, and the JS computes `60000/0 = Infinity`
and stores `Math.round(Infinity)` in `bpm`; on the five-tap session
`0, 100, 200, 1200, 2200` every interval falls outside the
`[0.7*median, 1.3*median]` band, the filter leaves no survivors, and the
JS computes `0/0 = NaN`.  Both non-finite outcomes are the `none` cases
of the model. -/
theorem calculateTapTempo_nonfinite_degenerate :
    calculateTapTempo [0, 0, 0, 0] = none
    ∧ 4 ≤ ([(0 : ℚ), 0, 0, 0]).length
    ∧ calculateTapTempo [0, 100, 200, 1200, 2200] = none
    ∧ filterOutliers (intervalsOf [0, 100, 200, 1200, 2200]) = [] := by
  refine ⟨?_, by norm_num, ?_, ?_⟩
  · norm_num [calculateTapTempo, intervalsOf, filterOutliers]
  · norm_num [calculateTapTempo, intervalsOf, filterOutliers, medianOf,
      List.insertionSort, List.orderedInsert]
  · norm_num [intervalsOf, filterOutliers, medianOf,
      List.insertionSort, List.orderedInsert]

/-- Counterexample to C7 as stated: with a negative anchor (`-1/2`),
interval `1/2` and duration `1` the forward pass starts below zero and
the marker at time `-1/2` is kept in the returned grid, so not every
kept marker lies in `[0, trackDurationSeconds]`. -/
theorem negative_time_marker_kept :
    generateBeatsCore 10 ((1 : ℚ)/2) (-(1/2)) 1 =
      some [⟨-(1/2), 1, false, true, 1⟩, ⟨0, 1, false, false, 2⟩,
            ⟨1/2, 1, false, false, 3⟩]
    ∧ (⟨-(1/2 : ℚ), 1, false, true, 1⟩ : BeatMarker).time < 0 := by
  constructor
  · norm_num [generateBeatsCore, backLoop, forwardLoop, normalizePos, normalizePosAux,
      sortByTime, List.insertionSort, List.orderedInsert]
  · norm_num

/-- Claim C7 as amended: for every positive beat interval and every
anchor lying inside `[0, trackDurationSeconds]`, every marker of the
generated grid has a time within `[0, trackDurationSeconds]`; negative
times arising transiently during the backward pass are never kept. -/
theorem grid_times_within_bounds :
    ∀ (fuel : ℕ) (bi a d : ℚ) (grid : List BeatMarker),
    0 < bi → 0 ≤ a → a ≤ d →
    generateBeatsCore fuel bi a d = some grid →
    ∀ m ∈ grid, 0 ≤ m.time ∧ m.time ≤ d := by
  intro fuel bi a d grid hbi ha had h m hm
  unfold generateBeatsCore at h
  rcases hback : (if 0 < a then backLoop bi fuel a 1 [] else some []) with _ | backward
  · rw [hback] at h; exact absurd h (by simp)
  · rw [hback] at h
    rcases hfwd : forwardLoop bi d fuel a 1 [] with _ | fwd
    · rw [hfwd] at h; exact absurd h (by simp)
    · rw [hfwd] at h
      rcases Option.some.inj h with rfl
      rcases List.mem_append.1 (mem_sortByTime.1 hm) with hmb | hmf
      · by_cases hpos : 0 < a
        · rw [if_pos hpos] at hback
          rcases backLoop_times bi hbi fuel a 1 [] backward hback m hmb with hemp | ⟨h0, hlt⟩
          · exact absurd hemp (by simp)
          · exact ⟨h0, le_trans (le_of_lt hlt) had⟩
        · rw [if_neg hpos] at hback
          rcases Option.some.inj hback with rfl
          exact absurd hmb (by simp)
      · rcases forwardLoop_times bi d (le_of_lt hbi) fuel a 1 [] fwd hfwd m hmf with
          hemp | ⟨hge, hlt⟩
        · exact absurd hemp (by simp)
        · exact ⟨le_trans ha hge, le_of_lt hlt⟩

/-- Witness for the amended C7 at interval 1/2, anchor 5/4, duration 2:
the backward marker at time 1/4 lies within `[0, 2]`. -/
theorem grid_times_within_bounds_witness :
    0 ≤ (⟨(1:ℚ)/4, 1, false, false, -1⟩ : BeatMarker).time
    ∧ (⟨(1:ℚ)/4, 1, false, false, -1⟩ : BeatMarker).time ≤ 2 :=
  grid_times_within_bounds 10 ((1 : ℚ)/2) (5/4) 2
    [⟨1/4, 1, false, false, -1⟩, ⟨3/4, 1, false, false, 0⟩,
     ⟨5/4, 1, false, true, 1⟩, ⟨7/4, 1, false, false, 2⟩]
    (by norm_num) (by norm_num) (by norm_num)
    (by norm_num [generateBeatsCore, backLoop, forwardLoop, normalizePos, normalizePosAux,
      sortByTime, List.insertionSort, List.orderedInsert])
    ⟨(1:ℚ)/4, 1, false, false, -1⟩ (by simp)

/-- Counterexample to C8 as stated: after `resetBeatMarkers` on a state
holding a two-tap session and a computed BPM of 120, the grid is empty
but the tap session and the tempo estimate are still present, so the
reset does not clear all three pieces of state. -/
theorem reset_keeps_session_and_estimate :
    (resetBeatMarkers ⟨[0, 500], 500, true, [⟨0, 1, false, true, 1⟩], some 120⟩).beatMarkers = []
    ∧ (resetBeatMarkers ⟨[0, 500], 500, true, [⟨0, 1, false, true, 1⟩], some 120⟩).tapTimes
        = [0, 500]
    ∧ (resetBeatMarkers ⟨[0, 500], 500, true, [⟨0, 1, false, true, 1⟩], some 120⟩).bpm
        = some 120 :=
  ⟨rfl, rfl, rfl⟩

/-- Claim C8 as amended: the reset invoked on new-track-load
unconditionally clears the beat grid but leaves the tap session, the
tempo estimate and the last-tap timestamp unchanged. -/
theorem resetBeatMarkers_clears_only_grid :
    ∀ st : BeatState,
    (resetBeatMarkers st).beatMarkers = []
    ∧ (resetBeatMarkers st).tapTimes = st.tapTimes
    ∧ (resetBeatMarkers st).bpm = st.bpm
    ∧ (resetBeatMarkers st).lastTapTime = st.lastTapTime :=
  fun _ => ⟨rfl, rfl, rfl, rfl⟩

/-- Claim C5: a tap recorded more than 3000 ms after the previous one
discards all earlier taps, leaving a session of exactly the new tap; a
tap within 3000 ms extends the session by one; `lastTapTime` is updated
on every call. -/
theorem recordTap_session :
    ∀ (st : BeatState) (now : ℚ),
    (3000 < now - st.lastTapTime → (recordTap st now).tapTimes = [now])
    ∧ (now - st.lastTapTime ≤ 3000 → (recordTap st now).tapTimes = st.tapTimes ++ [now])
    ∧ (recordTap st now).lastTapTime = now := by
  intro st now
  by_cases hg : 3000 < now - st.lastTapTime
  · refine ⟨fun _ => ?_, fun hle => absurd hg (not_lt.2 hle), ?_⟩
    · simp only [recordTap, if_pos hg]
      split_ifs <;> simp
    · simp only [recordTap, if_pos hg]
      split_ifs <;> simp
  · refine ⟨fun hgt => absurd hgt hg, fun _ => ?_, ?_⟩
    · simp only [recordTap, if_neg hg]
      split_ifs <;> simp
    · simp only [recordTap, if_neg hg]
      split_ifs <;> simp

/-- Witness for C5: a tap at 3500 on a session whose last tap was at 0
resets the session to the single new tap; a tap at 1000 on a session
whose last tap was at 500 extends it; `lastTapTime` ends at the new tap
time. -/
theorem recordTap_session_witness :
    (recordTap ⟨[0], 0, false, [], none⟩ 3500).tapTimes = [3500]
    ∧ (recordTap ⟨[0, 500], 500, false, [], none⟩ 1000).tapTimes = [0, 500, 1000]
    ∧ (recordTap ⟨[0], 0, false, [], none⟩ 3500).lastTapTime = 3500 :=
  ⟨(recordTap_session ⟨[0], 0, false, [], none⟩ 3500).1 (by norm_num),
   (recordTap_session ⟨[0, 500], 500, false, [], none⟩ 1000).2.1 (by norm_num),
   (recordTap_session ⟨[0], 0, false, [], none⟩ 3500).2.2⟩

/-- Claim C9: the windowing query keeps exactly the markers whose time
lies in the closed interval of width 4 seconds centred on the current
elapsed time, and the horizontal fraction of a marker is its offset from
the window start divided by the window width. -/
theorem visibleBeats_windowing :
    ∀ (markers : List BeatMarker) (t : ℚ) (b : BeatMarker),
    (b ∈ visibleBeats markers t ↔ b ∈ markers ∧ t - 2 ≤ b.time ∧ b.time ≤ t + 2)
    ∧ beatRelativePosition t b = (b.time - (t - 2)) / 4 := by
  intro markers t b
  constructor
  · simp only [visibleBeats, windowDuration, List.mem_filter, Bool.and_eq_true,
      decide_eq_true_eq]
    norm_num
  · simp only [beatRelativePosition, windowDuration]
    norm_num

/-- Claim C1: on every session of at least 4 taps for which the filtered
average is defined (some interval survives and the survivors do not sum
to zero), the computed BPM is the rounding of `60000 / A`, where `A` is
the claim's average: with exactly 4 taps the plain mean of all 3
intervals, otherwise the mean of the intervals surviving the
`[0.7*median, 1.3*median]` cut. -/
theorem calculateTapTempo_matches_spec :
    ∀ taps : List ℚ, 4 ≤ taps.length →
    filterOutliers (intervalsOf taps) ≠ [] →
    (filterOutliers (intervalsOf taps)).sum ≠ 0 →
    calculateTapTempo taps = some (round ((60000 : ℚ) / specAvgInterval taps)) := by
  intro taps h4 hne hsum
  have hlen := intervalsOf_length taps
  have hspec : specAvgInterval taps =
      (filterOutliers (intervalsOf taps)).sum
        / ((filterOutliers (intervalsOf taps)).length : ℚ) := by
    unfold specAvgInterval filterOutliers
    split_ifs with h1 h2 h3
    · rfl
    · omega
    · omega
    · rfl
  have hlen0 : (filterOutliers (intervalsOf taps)).length ≠ 0 := by
    simpa [List.length_eq_zero] using hne
  simp only [calculateTapTempo]
  rw [if_neg (by push_neg; exact ⟨hlen0, hsum⟩)]
  rw [hspec]

/-- Witness for C1 on the session `0, 500, 1000, 1500`: three equal
intervals of 500 ms, BPM `round(60000/500) = 120`. -/
theorem calculateTapTempo_matches_spec_witness :
    calculateTapTempo [0, 500, 1000, 1500]
      = some (round ((60000 : ℚ) / specAvgInterval [0, 500, 1000, 1500])) :=
  calculateTapTempo_matches_spec [0, 500, 1000, 1500] (by norm_num)
    (by norm_num [filterOutliers, intervalsOf]; simp)
    (by norm_num [filterOutliers, intervalsOf])

/-- Counterexample to C10 as stated: the session `0, 300, 800, 1500,
2000` has 5 taps and two intervals (300 and 700) outside the band around
the median 500, yet the grid spacing `(2000/4)/1000 = 1/2` seconds is
exactly `60 / 120`, the displayed BPM being 120 — so the claimed "for
every such session the spacing differs from 60/getBPM" is false. -/
theorem grid_spacing_can_equal_display :
    5 ≤ ([(0 : ℚ), 300, 800, 1500, 2000]).length
    ∧ (∃ v ∈ intervalsOf [(0 : ℚ), 300, 800, 1500, 2000],
        v < medianOf (intervalsOf [(0 : ℚ), 300, 800, 1500, 2000]) * (7/10)
        ∨ medianOf (intervalsOf [(0 : ℚ), 300, 800, 1500, 2000]) * (13/10) < v)
    ∧ calculateTapTempo [(0 : ℚ), 300, 800, 1500, 2000] = some 120
    ∧ gridBeatIntervalSeconds [(0 : ℚ), 300, 800, 1500, 2000] = 60 / 120 := by
  refine ⟨by norm_num, ?_, ?_, ?_⟩
  · refine ⟨300, by norm_num [intervalsOf], Or.inl ?_⟩
    norm_num [intervalsOf, medianOf, List.insertionSort, List.orderedInsert]
  · norm_num [calculateTapTempo, intervalsOf, filterOutliers, medianOf,
      List.insertionSort, List.orderedInsert, round_eq]
  · norm_num [gridBeatIntervalSeconds, intervalsOf]

/-- Claim C10 as amended: the grid generation uses the plain arithmetic
mean of all inter-tap intervals with no outlier filtering, and there
exist sessions of at least 5 taps with an interval outside the
`[0.7*median, 1.3*median]` band whose grid spacing differs from
`60 / getBPM()` — the displayed BPM and the rendered grid can (though
need not always) disagree. -/
theorem grid_uses_unfiltered_mean :
    (∀ (fuel : ℕ) (st : BeatState) (isPlaying : Bool) (s c d : ℚ),
        2 ≤ st.tapTimes.length →
        generateBeatsFromManualTaps fuel st true isPlaying s c d =
          generateBeatsCore fuel (gridBeatIntervalSeconds st.tapTimes)
            (if isPlaying then st.tapTimes.headI / 1000 - (c - s) else 0) d)
    ∧ (5 ≤ ([(0 : ℚ), 300, 800, 1300, 1800]).length
       ∧ (∃ v ∈ intervalsOf [(0 : ℚ), 300, 800, 1300, 1800],
            v < medianOf (intervalsOf [(0 : ℚ), 300, 800, 1300, 1800]) * (7/10)
            ∨ medianOf (intervalsOf [(0 : ℚ), 300, 800, 1300, 1800]) * (13/10) < v)
       ∧ calculateTapTempo [(0 : ℚ), 300, 800, 1300, 1800] = some 120
       ∧ gridBeatIntervalSeconds [(0 : ℚ), 300, 800, 1300, 1800] ≠ 60 / 120) := by
  constructor
  · intro fuel st isPlaying s c d h2
    simp only [generateBeatsFromManualTaps, gridBeatIntervalSeconds]
    rw [if_neg]
    push_neg
    exact ⟨by simp, by omega⟩
  · refine ⟨by norm_num, ?_, ?_, ?_⟩
    · refine ⟨300, by norm_num [intervalsOf], Or.inl ?_⟩
      norm_num [intervalsOf, medianOf, List.insertionSort, List.orderedInsert]
    · norm_num [calculateTapTempo, intervalsOf, filterOutliers, medianOf,
        List.insertionSort, List.orderedInsert, round_eq]
    · norm_num [gridBeatIntervalSeconds, intervalsOf]

/-- Witness for the amended C10: on a two-tap non-playing state the full
generation call equals the core generation with the unfiltered mean
interval and anchor 0. -/
theorem grid_uses_unfiltered_mean_witness :
    generateBeatsFromManualTaps 10 ⟨[0, 500], 500, false, [], none⟩ true false 0 0 2
      = generateBeatsCore 10 (gridBeatIntervalSeconds [0, 500]) 0 2 := by
  have h := grid_uses_unfiltered_mean.1 10 ⟨[0, 500], 500, false, [], none⟩ false 0 0 2
    (by norm_num)
  simpa using h

end DJApp
